import Mathlib

/-!
Verification of the sports-predictor odds pipeline.

Shallow embedding of the Python modules under `core/odds`, `core/backtesting`
and `sports/baseball/mlb/analysis`, with Python floats modelled as rationals,
Python `round` modelled as round-half-to-even at a decimal precision,
Python `int()` as truncation toward zero, and raising code modelled with
`Except`.  Each claim about the pipeline is settled by a theorem below the
definitions.
-/

namespace SportsPredictor

/-- Python `int(x)`: truncation toward zero. -/
def pyInt (x : ℚ) : ℤ :=
  if 0 ≤ x then ⌊x⌋ else ⌈x⌉

/-- Round a rational to the nearest integer, ties to even
(the rounding mode of Python `round`). -/
def roundHalfEven (x : ℚ) : ℤ :=
  let f := ⌊x⌋
  let r := x - f
  if r < 1/2 then f
  else if 1/2 < r then f + 1
  else if f % 2 = 0 then f else f + 1

/-- Python `round(x, n)` on exact rationals: half-to-even at `10^(-n)`. -/
def pyRound (n : ℕ) (x : ℚ) : ℚ :=
  (roundHalfEven (x * 10 ^ n) : ℚ) / 10 ^ n

theorem roundHalfEven_le_of_le {x y : ℚ} (h : x ≤ y) :
    roundHalfEven x ≤ roundHalfEven y := by
  have hf : (⌊x⌋ : ℤ) ≤ ⌊y⌋ := Int.floor_le_floor h
  rcases lt_or_eq_of_le hf with hlt | heq
  · have h1 : roundHalfEven x ≤ ⌊x⌋ + 1 := by
      simp only [roundHalfEven]; split_ifs <;> omega
    have h2 : (⌊y⌋ : ℤ) ≤ roundHalfEven y := by
      simp only [roundHalfEven]; split_ifs <;> omega
    omega
  · simp only [roundHalfEven]
    rw [← heq]
    have hq : ((⌊x⌋ : ℤ) : ℚ) ≤ x := Int.floor_le x
    split_ifs <;> first | omega | linarith

theorem roundHalfEven_intCast (k : ℤ) : roundHalfEven (k : ℚ) = k := by
  simp [roundHalfEven]

theorem pyRound_mono (n : ℕ) {x y : ℚ} (h : x ≤ y) :
    pyRound n x ≤ pyRound n y := by
  simp only [pyRound]
  have h10 : (0 : ℚ) < 10 ^ n := by positivity
  have hmul : x * 10 ^ n ≤ y * 10 ^ n := by nlinarith
  have hc : ((roundHalfEven (x * 10 ^ n)) : ℚ) ≤ roundHalfEven (y * 10 ^ n) := by
    exact_mod_cast roundHalfEven_le_of_le hmul
  gcongr

theorem pyRound_fixed (n : ℕ) (x : ℚ) (k : ℤ) (hk : x * 10 ^ n = (k : ℚ)) :
    pyRound n x = x := by
  have h10 : (10 : ℚ) ^ n ≠ 0 := by positivity
  simp only [pyRound]
  rw [hk, roundHalfEven_intCast, div_eq_iff h10]
  exact hk.symm

/-! ## core/odds/utils/odds_converter.py -/

/-- `american_to_decimal`: converts American odds to decimal odds.
Raises on `0`; negative odds give `100/|a| + 1`, positive give `a/100 + 1`. -/
def american_to_decimal (american_odds : ℤ) : Except String ℚ :=
  if american_odds = 0 then .error "American odds cannot be 0"
  else if american_odds < 0 then .ok (100 / (|american_odds| : ℚ) + 1)
  else .ok ((american_odds : ℚ) / 100 + 1)

/-- `decimal_to_american`: converts decimal odds to American odds.
Raises on odds `<= 1.0`; underdog branch for `>= 2.0`, favorite below. -/
def decimal_to_american (decimal_odds : ℚ) : Except String ℤ :=
  if decimal_odds ≤ 1 then .error "Decimal odds must be > 1.0"
  else if 2 ≤ decimal_odds then .ok (pyInt ((decimal_odds - 1) * 100))
  else .ok (pyInt (-100 / (decimal_odds - 1)))

/-- `implied_probability_from_decimal`: `1/odds`, and `0.0` for odds `<= 1.0`. -/
def implied_probability_from_decimal (decimal_odds : ℚ) : ℚ :=
  if decimal_odds ≤ 1 then 0 else 1 / decimal_odds

/-- Raw odds value held in a market dict: Python `int` means American format,
Python `float` means decimal format. -/
inductive RawOdds where
  | ofInt (a : ℤ)
  | ofFloat (d : ℚ)
deriving DecidableEq

/-- `normalize_odds_to_decimal`: ints are treated as American odds,
floats as decimal odds which must lie strictly between 1.0 and 100.0. -/
def normalize_odds_to_decimal : RawOdds → Except String ℚ
  | .ofInt a =>
      if a = 0 then .error "American odds cannot be 0"
      else american_to_decimal a
  | .ofFloat d =>
      if 1 < d ∧ d < 100 then .ok d
      else .error "Invalid decimal odds"

/-! ## core/odds/staking/kelly.py -/

/-- `fractional_kelly`: fractional Kelly stake with a risk cap.
`b = odds - 1`, `q = 1 - model_prob`, `kelly = (b*model_prob - q)/b`;
returns `0.0` when `kelly <= 0`, else `min(kelly*fraction, cap)`.
Division by `b = 0` raises (modelled as an error). -/
def fractional_kelly (odds model_prob fraction cap : ℚ) : Except String ℚ :=
  let b := odds - 1
  let q := 1 - model_prob
  if b = 0 then .error "ZeroDivisionError"
  else
    let kelly := (b * model_prob - q) / b
    if kelly ≤ 0 then .ok 0
    else .ok (min (kelly * fraction) cap)

/-! ## core/odds/staking/correlation_stake.py -/

/-- Result of `correlation_stake_multiplier`. -/
structure CorrStake where
  multiplier : ℚ
  reason : String
deriving DecidableEq

/-- `correlation_stake_multiplier`: stake multiplier from the ML pick's side
and the (optional) totals pick's side; `none` models a missing/falsy dict. -/
def correlation_stake_multiplier (ml_side : Option String)
    (total_side : Option String) : CorrStake :=
  match ml_side, total_side with
  | some ms, some ts =>
      if (ms = "home" ∧ ts = "over") ∨ (ms = "away" ∧ ts = "over") then
        ⟨3/4, "Positive ML ↔ Totals correlation (shared scoring dominance)"⟩
      else if (ms = "home" ∧ ts = "under") ∨ (ms = "away" ∧ ts = "under") then
        ⟨7/10, "Negative ML ↔ Totals correlation (pace suppression)"⟩
      else
        ⟨1, "No meaningful correlation detected"⟩
  | _, _ => ⟨1, "No correlated market"⟩

/-! ## core/odds/staking/stake_engine.py -/

/-- The fields of a pick dict read by `calculate_stake`: `pick.get("odds")`
and `pick["model_prob"]` (a direct index, hence `Option`), plus the side
forwarded to the correlation multiplier. -/
structure StakeInput where
  odds : Option ℚ
  model_prob : Option ℚ
  side : String

/-- The staking fields `calculate_stake` writes back onto the pick. -/
structure StakeOutput where
  stake_pct : ℚ
  stake : ℚ
  stake_reason : String
deriving DecidableEq

/-- `calculate_stake`: zero stake on missing or non-decimal odds (`<= 1.0`),
otherwise fractional Kelly (fraction 0.25, cap 0.05) scaled by the
ML–totals correlation multiplier; `stake_pct` is rounded to 4 decimals and
`stake = bankroll * stake_pct` to 2.  A missing `model_prob` raises. -/
def calculate_stake (pick : StakeInput) (bankroll : ℚ)
    (totals_side : Option String) : Except String StakeOutput :=
  match pick.odds with
  | none => .ok ⟨0, 0, "Invalid odds"⟩
  | some od =>
    if od ≤ 1 then .ok ⟨0, 0, "Invalid odds"⟩
    else
      match pick.model_prob with
      | none => .error "KeyError: model_prob"
      | some mp =>
        match fractional_kelly od mp (1/4) (1/20) with
        | .error e => .error e
        | .ok base_stake_pct =>
          let corr := correlation_stake_multiplier (some pick.side) totals_side
          let final_stake_pct := base_stake_pct * corr.multiplier
          .ok ⟨pyRound 4 final_stake_pct,
               pyRound 2 (bankroll * final_stake_pct),
               corr.reason⟩

/-! ## The analysis dict

Fields of the `analysis` dict read by the market evaluators.  `Option`
models a missing key (or a falsy empty sub-dict where the code tests
truthiness). -/

/-- `analysis["projections"]`: run projections per team. -/
structure Projections where
  home_runs : Option ℚ
  away_runs : Option ℚ
  total_runs : Option ℚ
deriving DecidableEq

/-- `analysis["market"]["moneyline"]`: raw odds per side (the code accepts
either a bare odds value or a `{"odds": ...}` sub-dict; both collapse to the
odds value). -/
structure MoneylineMarket where
  home : Option RawOdds
  away : Option RawOdds
deriving DecidableEq

/-- `analysis["market"]["total"]`: the totals market dict. -/
structure TotalMarket where
  line : Option ℚ
  odds_over : Option ℚ
  odds_under : Option ℚ
deriving DecidableEq

/-- The analysis dict: the fields read by `evaluate_moneyline_market`,
`ml_totals_correlation_adjustment` and `evaluate_totals_market`. -/
structure Analysis where
  market_moneyline : Option MoneylineMarket
  market_total : TotalMarket
  confidence : ℚ
  flags : List String
  teams_home : String
  teams_away : String
  projections : Option Projections
  proj_total : Option ℚ
  projection_confidence : ℚ

/-! ## core/odds/models/monte_carlo_ml.py -/

/-- `monte_carlo_moneyline`, deterministic skeleton: with missing/empty
projections, or a zero `home_runs`/`away_runs` mean, both win probabilities
are `0.5`.  Otherwise the function runs a random simulation; `mcHome`
abstracts the simulated (already rounded) home win probability, and the
away probability is its complement. -/
def monte_carlo_moneyline (mcHome : ℚ) (analysis : Analysis) : ℚ × ℚ :=
  match analysis.projections with
  | none => (1/2, 1/2)
  | some proj =>
    let home_mean := proj.home_runs.getD 0
    let away_mean := proj.away_runs.getD 0
    if home_mean = 0 ∨ away_mean = 0 then (1/2, 1/2)
    else (mcHome, 1 - mcHome)

/-! ## core/odds/models/ml_totals_correlation.py -/

/-- The fields of a moneyline pick dict. -/
structure Pick where
  market : String
  side : String
  team : String
  odds : ℚ
  odds_format : String
  model_prob : ℚ
  implied_prob : ℚ
  edge : ℚ
  confidence : ℚ
  reason : String
  correlation_reason : String
deriving DecidableEq

/-- Result of `ml_totals_correlation_adjustment`. -/
structure CorrAdj where
  confidence_multiplier : ℚ
  edge_multiplier : ℚ
  reason : String
deriving DecidableEq

/-- `ml_totals_correlation_adjustment`: neutral multipliers when the
projected total or the market line is missing; otherwise a boost/penalty per
the favorite/underdog and total-lean rules, clamped to
`[max_penalty, max_boost]`, with multipliers `round(1 + boost, 3)`. -/
def ml_totals_correlation_adjustment (ml_pick : Pick) (analysis : Analysis)
    (max_boost max_penalty : ℚ) : CorrAdj :=
  let proj_total := analysis.projections.bind Projections.total_runs
  let total_line := analysis.market_total.line
  match proj_total, total_line with
  | some pt, some tl =>
    let edge := ml_pick.edge
    let delta_total := pt - tl
    let is_favorite := 0 < edge ∧ ml_pick.odds < 0
    let is_underdog := 0 < ml_pick.odds
    let (boost, reason) :=
      if is_favorite ∧ 3/5 < delta_total then
        (min max_boost (4/100 + delta_total * (2/100)),
         "Favorite aligned with high-scoring projection")
      else if is_favorite ∧ delta_total < -(3/5) then
        (max max_penalty (-(4/100) + delta_total * (2/100)),
         "Favorite in projected low-scoring game (higher variance)")
      else if is_underdog ∧ delta_total < -(3/5) then
        (min max_boost (35/1000 + |delta_total| * (2/100)),
         "Underdog aligned with low-scoring projection")
      else if is_underdog ∧ 3/5 < delta_total then
        (max max_penalty (-(4/100) - delta_total * (2/100)),
         "Underdog in projected high-scoring game")
      else (0, "Neutral ML ↔ Totals correlation")
    let boost := max (min boost max_boost) max_penalty
    ⟨pyRound 3 (1 + boost), pyRound 3 (1 + boost), reason⟩
  | _, _ => ⟨1, 1, "No totals data available"⟩

/-! ## core/odds/markets/moneyline.py -/

/-- `normalize_edge`: `(model_prob - implied_prob)/implied_prob`, zero when
the implied probability is outside `(0, 1)`. -/
def normalize_edge (model_prob implied_prob : ℚ) : ℚ :=
  if implied_prob ≤ 0 ∨ 1 ≤ implied_prob then 0
  else (model_prob - implied_prob) / implied_prob

/-- A flag counts as low-quality when it contains one of the substrings
`LOW_SAMPLE`, `NO_H2H`, `NO_RECENT`. -/
def lowQualityFlag (f : String) : Bool :=
  decide ("LOW_SAMPLE".data <:+: f.data) || decide ("NO_H2H".data <:+: f.data) ||
    decide ("NO_RECENT".data <:+: f.data)

/-- `apply_low_sample_penalty`: scales the probability down by
`min(count*penalty_per_flag, max_penalty)` over low-quality flags, then
clamps to `[0.05, 0.95]`. -/
def apply_low_sample_penalty (probability : ℚ) (flags : List String)
    (penalty_per_flag max_penalty : ℚ) : ℚ :=
  let low_quality_flags := flags.filter (fun f => lowQualityFlag f)
  let penalty := min ((low_quality_flags.length : ℚ) * penalty_per_flag) max_penalty
  let adjusted := probability * (1 - penalty)
  max (min adjusted (95/100)) (5/100)

/-- `evaluate_moneyline_market`: guards (market present, confidence at least
`min_confidence`, both odds present and normalizable), Monte Carlo home
probability (abstracted by `mcHome`) with the low-sample penalty, edge
computation per side, pick selection against `min_edge` with the away side
checked against the updated best edge, and the final ML–totals correlation
adjustment of edge and confidence. -/
def evaluate_moneyline_market (mcHome min_edge min_confidence : ℚ)
    (analysis : Analysis) : Option Pick :=
  match analysis.market_moneyline with
  | none => none
  | some market =>
    if analysis.confidence < min_confidence then none
    else
      let mc := monte_carlo_moneyline mcHome analysis
      let prob_home := apply_low_sample_penalty mc.1 analysis.flags (35/1000) (12/100)
      let prob_away := 1 - prob_home
      match market.home, market.away with
      | some home_odds_raw, some away_odds_raw =>
        match normalize_odds_to_decimal home_odds_raw,
              normalize_odds_to_decimal away_odds_raw with
        | .ok home_odds_decimal, .ok away_odds_decimal =>
          let imp_home := implied_probability_from_decimal home_odds_decimal
          let imp_away := implied_probability_from_decimal away_odds_decimal
          let edge_home := normalize_edge prob_home imp_home
          let edge_away := normalize_edge prob_away imp_away
          let home_pick : Pick :=
            ⟨"moneyline", "home", analysis.teams_home, home_odds_decimal,
             "decimal", pyRound 3 prob_home, pyRound 3 imp_home,
             pyRound 3 edge_home,
             pyRound 3 ((analysis.confidence + prob_home) / 2),
             "Monte Carlo ML (starter + bullpen, 7–9 innings), adjusted for data quality",
             ""⟩
          let away_pick : Pick :=
            ⟨"moneyline", "away", analysis.teams_away, away_odds_decimal,
             "decimal", pyRound 3 prob_away, pyRound 3 imp_away,
             pyRound 3 edge_away,
             pyRound 3 ((analysis.confidence + prob_away) / 2),
             "Monte Carlo ML (starter + bullpen, 7–9 innings), adjusted for data quality",
             ""⟩
          let st :=
            if min_edge ≤ edge_home then (edge_home, some home_pick)
            else (min_edge, (none : Option Pick))
          let best_pick := if st.1 ≤ edge_away then some away_pick else st.2
          match best_pick with
          | none => none
          | some bp =>
            let corr := ml_totals_correlation_adjustment bp analysis (7/100) (-(7/100))
            some { bp with
              edge := pyRound 3 (bp.edge * corr.edge_multiplier),
              confidence := pyRound 3 (bp.confidence * corr.confidence_multiplier),
              correlation_reason := corr.reason }
        | _, _ => none
      | _, _ => none

/-! ## core/odds/markets/totals.py -/

/-- `implied_prob` (local helper in totals.py): `1/odds`, zero for `odds <= 1`. -/
def implied_prob (odds : ℚ) : ℚ :=
  if odds ≤ 1 then 0 else 1 / odds

/-- `edge` (local helper in totals.py): model probability minus implied. -/
def edge (model_prob odds : ℚ) : ℚ :=
  model_prob - implied_prob odds

/-- The fields of a totals pick dict. -/
structure TotalsPick where
  market : String
  side : String
  line : ℚ
  odds : ℚ
  model_prob : ℚ
  edge : ℚ
  confidence : ℚ
deriving DecidableEq

/-- `evaluate_totals_market`: Over/Under evaluation.  The logistic value
`pow(2.71828, -(proj_total - line))` is irrational in general and is
abstracted by the parameter `powv` (so `model_prob_over = 1/(1 + powv)`);
everything else follows the source: missing projection/line gives no pick,
confidence below 0.55 gives no pick, each side needs a truthy odds value and
an edge that is positive, at least 0.02 and beats the running best edge
(strictly, for the Under side). -/
def evaluate_totals_market (powv : ℚ) (analysis : Analysis) : Option TotalsPick :=
  let conf := analysis.projection_confidence
  let market := analysis.market_total
  match analysis.proj_total, market.line with
  | some _, some line =>
    if conf < 11/20 then none
    else
      let model_prob_over := 1 / (1 + powv)
      let model_prob_under := 1 - model_prob_over
      let st :=
        match market.odds_over with
        | some odds_over =>
          if odds_over ≠ 0 then
            let e := edge model_prob_over odds_over
            if 0 < e ∧ 2/100 ≤ e then
              (e, some (⟨"TOTAL", "OVER", line, odds_over,
                pyRound 3 model_prob_over, pyRound 3 e, pyRound 3 conf⟩ : TotalsPick))
            else ((0 : ℚ), none)
          else (0, none)
        | none => (0, none)
      match market.odds_under with
      | some odds_under =>
        if odds_under ≠ 0 then
          let e := edge model_prob_under odds_under
          if st.1 < e ∧ 2/100 ≤ e then
            some ⟨"TOTAL", "UNDER", line, odds_under,
              pyRound 3 model_prob_under, pyRound 3 e, pyRound 3 conf⟩
          else st.2
        else st.2
      | none => st.2
  | _, _ => none

/-! ## sports/baseball/mlb/analysis/projections.py -/

/-- One `if x: vals.append(x * w)` step of `_combine_confidences`: the
weighted entry when the input is supplied and truthy (Python `if x:` skips
both `None` and `0.0`). -/
def weightedEntry (o : Option ℚ) (w : ℚ) : Option ℚ :=
  match o with
  | some v => if v = 0 then none else some (v * w)
  | none => none

/-- `_combine_confidences`: builds the list of weighted confidences from the
truthy inputs, then clamps the sum to `[0.1, 1.0]`; returns `0.5` when the
list is empty. -/
def _combine_confidences (off pit defense context h2h : Option ℚ) : ℚ :=
  let vals : List ℚ := List.filterMap id
    [weightedEntry off (2/5), weightedEntry pit (2/5), weightedEntry defense (1/10),
     weightedEntry context (1/20), weightedEntry h2h (1/20)]
  if vals = [] then 1/2 else max (1/10) (min 1 vals.sum)

/-- The combined confidence as the claim words it: the fixed-weight linear
combination of the supplied inputs, clamped to `[0.2, 1.0]`.  Written from
the spec sentence, for comparison against `_combine_confidences`. -/
def combine_confidences_claim (off pit defense context h2h : Option ℚ) : ℚ :=
  max (1/5) (min 1
    (off.getD 0 * (2/5) + pit.getD 0 * (2/5) + defense.getD 0 * (1/10) +
     context.getD 0 * (1/20) + h2h.getD 0 * (1/20)))

/-! ## empirical_bayes_adjust (pitching.py and offense.py) -/

/-- `empirical_bayes_adjust` from `analysis/pitching.py`: the guard is
`ip is not None`, so any non-`None` sample size reaches the division;
a zero denominator raises. -/
def empirical_bayes_adjust_pitching (value : ℚ) (ip : Option ℚ)
    (league_value eb_ip : ℚ) : Except String ℚ :=
  match ip with
  | none => .ok league_value
  | some n =>
      if n + eb_ip = 0 then .error "ZeroDivisionError"
      else .ok ((value * n + league_value * eb_ip) / (n + eb_ip))

/-- `empirical_bayes_adjust` from `analysis/offense.py`: the guard is the
truthiness of `n`, so `n = 0` returns the league prior while any nonzero
`n` reaches the division; a zero denominator raises. -/
def empirical_bayes_adjust (value n league_value eb_n : ℚ) : Except String ℚ :=
  if n = 0 then .ok league_value
  else if n + eb_n = 0 then .error "ZeroDivisionError"
  else .ok ((value * n + league_value * eb_n) / (n + eb_n))

/-! ## core/backtesting -/

/-- The result fields of `HistoricalGame` used by settlement. -/
structure HistoricalGame where
  home_score : ℤ
  away_score : ℤ
  total_runs : ℤ
deriving DecidableEq

/-- `ResultMatcher.match_moneyline`: WIN/LOSS by strict score comparison for
the pick's side, PUSH on equal scores, UNKNOWN for any other side. -/
def match_moneyline (side : String) (game : HistoricalGame) : String :=
  if side = "home" then
    if game.away_score < game.home_score then "WIN"
    else if game.home_score < game.away_score then "LOSS"
    else "PUSH"
  else if side = "away" then
    if game.home_score < game.away_score then "WIN"
    else if game.away_score < game.home_score then "LOSS"
    else "PUSH"
  else "UNKNOWN"

/-- Python `str.upper()` modelled as a character map (Lean's `String.toUpper`
is implemented with an opaque loop). -/
def pyUpper (s : String) : String := ⟨s.data.map Char.toUpper⟩

/-- Python `str.lower()` modelled as a character map. -/
def pyLower (s : String) : String := ⟨s.data.map Char.toLower⟩

/-- `ResultMatcher.match_total`: upper-cases the side, UNKNOWN without a
line, strict comparisons of the actual total against the line with the
exact tie giving PUSH. -/
def match_total (side : String) (line : Option ℚ) (game : HistoricalGame) : String :=
  let s := pyUpper side
  match line with
  | none => "UNKNOWN"
  | some l =>
    if s = "OVER" then
      if l < (game.total_runs : ℚ) then "WIN"
      else if (game.total_runs : ℚ) < l then "LOSS"
      else "PUSH"
    else if s = "UNDER" then
      if (game.total_runs : ℚ) < l then "WIN"
      else if l < (game.total_runs : ℚ) then "LOSS"
      else "PUSH"
    else "UNKNOWN"

/-- `ResultMatcher.match_pick`: dispatches on the lower-cased market name. -/
def match_pick (market side : String) (line : Option ℚ)
    (game : HistoricalGame) : String :=
  let m := pyLower market
  if m = "moneyline" then match_moneyline side game
  else if m = "total" ∨ m = "totals" then match_total side line game
  else "UNKNOWN"

/-- `BacktestEngine.simulate_bet`, settlement and profit: profit is
`stake*(odds - 1)` on WIN, `-stake` on LOSS and `0` otherwise; returns the
settlement string together with the profit. -/
def simulate_bet (market side : String) (line : Option ℚ) (stake odds : ℚ)
    (game : HistoricalGame) : String × ℚ :=
  let result := match_pick market side line game
  let profit :=
    if result = "WIN" then stake * (odds - 1)
    else if result = "LOSS" then -stake
    else 0
  (result, profit)

/-! ## Concrete inputs used by witnesses and counterexamples -/

/-- An analysis with a full moneyline market (decimal 2.5 on both sides) and
confidence 0.6, but no projections at all. -/
def analysisNoProjections : Analysis where
  market_moneyline := some ⟨some (.ofFloat (5/2)), some (.ofFloat (5/2))⟩
  market_total := ⟨none, none, none⟩
  confidence := 3/5
  flags := []
  teams_home := "HOME"
  teams_away := "AWAY"
  projections := none
  proj_total := none
  projection_confidence := 0

/-- A totals analysis: projected 9 runs against a line of 8, confidence 0.6,
over odds 2.0 offered. -/
def analysisTotalsOnly : Analysis where
  market_moneyline := none
  market_total := ⟨some 8, some 2, none⟩
  confidence := 0
  flags := []
  teams_home := "HOME"
  teams_away := "AWAY"
  projections := some ⟨none, none, some 9⟩
  proj_total := some 9
  projection_confidence := 3/5

/-- A moneyline pick on the away side at decimal odds 2.0 with a projected
total one run above the line, used to instantiate the correlation rules. -/
def pickUnderdog : Pick :=
  ⟨"moneyline", "away", "AWAY", 2, "decimal", 1/2, 2/5, 1/10, 1/2,
   "Monte Carlo ML (starter + bullpen, 7–9 innings), adjusted for data quality", ""⟩

/-! # Theorems

General-purpose lemmas first, then one theorem per claim (with its witness
or counterexample). -/

theorem pyRound_le_const (n : ℕ) {x : ℚ} (c : ℚ) (k : ℤ)
    (hk : c * 10 ^ n = (k : ℚ)) (h : x ≤ c) : pyRound n x ≤ c := by
  rw [← pyRound_fixed n c k hk]
  exact pyRound_mono n h

theorem const_le_pyRound (n : ℕ) {x : ℚ} (c : ℚ) (k : ℤ)
    (hk : c * 10 ^ n = (k : ℚ)) (h : c ≤ x) : c ≤ pyRound n x := by
  rw [← pyRound_fixed n c k hk]
  exact pyRound_mono n h

theorem pyRound_clamp_bounds (b : ℚ) :
    1 - 7/100 ≤ pyRound 3 (1 + (b ⊓ 7/100 ⊔ -(7/100))) ∧
    pyRound 3 (1 + (b ⊓ 7/100 ⊔ -(7/100))) ≤ 1 + 7/100 := by
  have h1 : -(7/100 : ℚ) ≤ b ⊓ 7/100 ⊔ -(7/100) := le_max_right _ _
  have h2 : b ⊓ 7/100 ⊔ -(7/100) ≤ (7/100 : ℚ) := by
    apply max_le (min_le_right _ _)
    norm_num
  constructor
  · exact const_le_pyRound 3 (1 - 7/100) 930 (by norm_num) (by linarith)
  · exact pyRound_le_const 3 (1 + 7/100) 1070 (by norm_num) (by linarith)

theorem corr_stake_multiplier_cases (a b : Option String) :
    (correlation_stake_multiplier a b).multiplier = 1 ∨
    (correlation_stake_multiplier a b).multiplier = 3/4 ∨
    (correlation_stake_multiplier a b).multiplier = 7/10 := by
  unfold correlation_stake_multiplier
  rcases a with _ | ms <;> rcases b with _ | ts <;> simp <;> split_ifs <;> simp

theorem corr_stake_multiplier_bounds (a b : Option String) :
    0 ≤ (correlation_stake_multiplier a b).multiplier ∧
    (correlation_stake_multiplier a b).multiplier ≤ 1 := by
  rcases corr_stake_multiplier_cases a b with h | h | h <;> rw [h] <;>
    exact ⟨by norm_num, by norm_num⟩

theorem fractional_kelly_ok_bounds {odds model_prob fraction cap r : ℚ}
    (hf : 0 ≤ fraction) (hc : 0 ≤ cap)
    (h : fractional_kelly odds model_prob fraction cap = .ok r) :
    0 ≤ r ∧ r ≤ cap := by
  unfold fractional_kelly at h
  dsimp only at h
  split_ifs at h with hb hk
  · obtain rfl : (0 : ℚ) = r := by injection h
    exact ⟨le_refl 0, hc⟩
  · obtain rfl : ((odds - 1) * model_prob - (1 - model_prob)) / (odds - 1) *
        fraction ⊓ cap = r := by injection h
    push_neg at hk
    exact ⟨le_min (by positivity) hc, min_le_right _ _⟩

/-- C2: for decimal odds above 1.0, `fractional_kelly` returns 0 whenever the
model probability is at most the implied probability `1/odds`, its value
never exceeds the cap, and the `stake_pct` computed by `calculate_stake`
never exceeds 0.05 for any input pick (the correlation multiplier being at
most 1). -/
theorem kelly_zero_and_cap (odds model_prob cap : ℚ) (hodds : 1 < odds)
    (hcap : 0 ≤ cap) :
    (model_prob ≤ 1 / odds → fractional_kelly odds model_prob (1/4) cap = .ok 0)
  ∧ (∀ r, fractional_kelly odds model_prob (1/4) cap = .ok r → r ≤ cap)
  ∧ (∀ (pick : StakeInput) (bankroll : ℚ) (ts : Option String) (out : StakeOutput),
      calculate_stake pick bankroll ts = .ok out → out.stake_pct ≤ 1/20) := by
  have h0 : (0 : ℚ) < odds := by linarith
  have hd : (0 : ℚ) < odds - 1 := by linarith
  refine ⟨?_, ?_, ?_⟩
  · intro hp
    have h1 : model_prob * odds ≤ 1 := (le_div_iff h0).1 hp
    have hnum : (odds - 1) * model_prob - (1 - model_prob) ≤ 0 := by nlinarith
    have hk : ((odds - 1) * model_prob - (1 - model_prob)) / (odds - 1) ≤ 0 :=
      div_nonpos_of_nonpos_of_nonneg hnum (le_of_lt hd)
    unfold fractional_kelly
    dsimp only
    rw [if_neg (ne_of_gt hd), if_pos hk]
  · intro r h
    exact (fractional_kelly_ok_bounds (by norm_num) hcap h).2
  · intro pick bankroll ts out h
    unfold calculate_stake at h
    rcases hpo : pick.odds with _ | od <;> rw [hpo] at h <;> dsimp only at h
    · obtain rfl : (⟨0, 0, "Invalid odds"⟩ : StakeOutput) = out := by injection h
      norm_num
    · split_ifs at h with hle
      · obtain rfl : (⟨0, 0, "Invalid odds"⟩ : StakeOutput) = out := by injection h
        norm_num
      · rcases hmp : pick.model_prob with _ | mp <;> rw [hmp] at h <;> dsimp only at h
        · exact absurd h (by simp)
        · rcases hfk : fractional_kelly od mp (1/4) (1/20) with e | base <;>
            rw [hfk] at h <;> dsimp only at h
          · exact absurd h (by simp)
          · obtain rfl : _ = out := by injection h
            have hb := fractional_kelly_ok_bounds (by norm_num) (by norm_num) hfk
            have hm := corr_stake_multiplier_bounds (some pick.side) ts
            have hfsp : base * (correlation_stake_multiplier (some pick.side) ts).multiplier
                ≤ 1/20 := by nlinarith [hb.1, hb.2, hm.1, hm.2]
            exact pyRound_le_const 4 (1/20) 500 (by norm_num) hfsp

theorem kelly_zero_and_cap_witness :
    fractional_kelly 2 (1/2) (1/4) (1/20) = .ok 0 :=
  (kelly_zero_and_cap 2 (1/2) (1/20) (by norm_num) (by norm_num)).1 (by norm_num)

/-- C3: a pick whose odds are missing or at most 1.0 gets stake_pct 0 and
stake 0 from `calculate_stake`, with no exception, for any bankroll and any
correlated totals pick. -/
theorem calculate_stake_invalid_odds (pick : StakeInput) (bankroll : ℚ)
    (totals_side : Option String)
    (h : pick.odds = none ∨ ∃ od, pick.odds = some od ∧ od ≤ 1) :
    calculate_stake pick bankroll totals_side = .ok ⟨0, 0, "Invalid odds"⟩ := by
  unfold calculate_stake
  rcases h with h | ⟨od, h, hle⟩ <;> rw [h] <;> dsimp only
  rw [if_pos hle]

theorem calculate_stake_invalid_odds_witness :
    calculate_stake ⟨some 1, some (1/2), "home"⟩ 1000 (some "over") =
      .ok ⟨0, 0, "Invalid odds"⟩ :=
  calculate_stake_invalid_odds ⟨some 1, some (1/2), "home"⟩ 1000 (some "over")
    (Or.inr ⟨1, rfl, le_refl 1⟩)

/-- C6 counterexample: at sample size `-1` (which is `<= 0`) the offense
`empirical_bayes_adjust` does not return the prior, and at sample size
`-162` it divides by zero; both violate the claim for negative samples. -/
theorem empirical_bayes_neg_counterexample :
    empirical_bayes_adjust 1 (-1) 0 162 = .ok (-(1/161))
  ∧ (-(1/161) : ℚ) ≠ 0
  ∧ empirical_bayes_adjust 1 (-162) 0 162 = .error "ZeroDivisionError" := by
  refine ⟨?_, by norm_num, ?_⟩ <;> norm_num [empirical_bayes_adjust]

/-- C6 amended: with a positive prior weight, both `empirical_bayes_adjust`
variants return the prior unchanged at sample size zero (`None` included
for the pitching variant) and compute the shrinkage formula without
division by zero for every positive sample size; negative sample sizes are
not guarded. -/
theorem empirical_bayes_zero_and_pos (value league_value eb : ℚ)
    (heb : 0 < eb) :
    empirical_bayes_adjust value 0 league_value eb = .ok league_value
  ∧ empirical_bayes_adjust_pitching value none league_value eb = .ok league_value
  ∧ ∀ n : ℚ, 0 < n →
      empirical_bayes_adjust value n league_value eb =
        .ok ((value * n + league_value * eb) / (n + eb))
    ∧ empirical_bayes_adjust_pitching value (some n) league_value eb =
        .ok ((value * n + league_value * eb) / (n + eb)) := by
  refine ⟨by simp [empirical_bayes_adjust], rfl, ?_⟩
  intro n hn
  have hne : n + eb ≠ 0 := by positivity
  constructor <;>
    simp [empirical_bayes_adjust, empirical_bayes_adjust_pitching, hne, ne_of_gt hn]

theorem empirical_bayes_zero_and_pos_witness :
    empirical_bayes_adjust 1 4 2 3 = .ok ((1 * 4 + 2 * 3) / (4 + 3)) :=
  ((empirical_bayes_zero_and_pos 1 2 3 (by norm_num)).2.2 4 (by norm_num)).1

/-- C7 counterexample: with a single supplied confidence of 0.1 the code
clamps the weighted sum 0.04 to the lower bound 0.1, not to 0.2 as the
claimed clamp interval `[0.2, 1.0]` would. -/
theorem combine_confidences_counterexample :
    _combine_confidences (some (1/10)) none none none none = 1/10
  ∧ combine_confidences_claim (some (1/10)) none none none none = 1/5
  ∧ (1/10 : ℚ) ≠ 1/5 := by
  refine ⟨?_, ?_, by norm_num⟩
  · norm_num [_combine_confidences, weightedEntry, List.filterMap_cons,
      List.filterMap_nil, min_def, max_def]
  · norm_num [combine_confidences_claim, min_def, max_def]

theorem filterMap_id_sum (l : List (Option ℚ)) :
    (l.filterMap id).sum = (l.map (fun o => o.getD 0)).sum := by
  induction l with
  | nil => simp
  | cons a t ih => rcases a with _ | v <;> simp [ih]

theorem filterMap_id_eq_nil (l : List (Option ℚ)) :
    l.filterMap id = [] ↔ ∀ o ∈ l, o = none := by
  induction l with
  | nil => simp
  | cons a t ih => rcases a with _ | v <;> simp [ih]

theorem weightedEntry_getD (o : Option ℚ) (w : ℚ) :
    (weightedEntry o w).getD 0 = o.getD 0 * w := by
  rcases o with _ | v
  · simp [weightedEntry]
  · by_cases hv : v = 0 <;> simp [weightedEntry, hv]

theorem weightedEntry_eq_none (o : Option ℚ) (w : ℚ) :
    weightedEntry o w = none ↔ o.getD 0 = 0 := by
  rcases o with _ | v
  · simp [weightedEntry]
  · by_cases hv : v = 0 <;> simp [weightedEntry, hv]

/-- C7 amended: the combined confidence equals the weighted sum
`0.4*offense + 0.4*pitcher + 0.1*defense + 0.05*context + 0.05*h2h` over the
supplied truthy inputs, clamped to `[0.1, 1.0]`, and `0.5` when no truthy
input is supplied (a zero confidence counts as not supplied and contributes
zero weight either way). -/
theorem combine_confidences_eq (off pit defense context h2h : Option ℚ) :
    _combine_confidences off pit defense context h2h =
      if off.getD 0 = 0 ∧ pit.getD 0 = 0 ∧ defense.getD 0 = 0 ∧
         context.getD 0 = 0 ∧ h2h.getD 0 = 0 then 1/2
      else max (1/10) (min 1
        (off.getD 0 * (2/5) + pit.getD 0 * (2/5) + defense.getD 0 * (1/10) +
         context.getD 0 * (1/20) + h2h.getD 0 * (1/20))) := by
  simp only [_combine_confidences, filterMap_id_sum, filterMap_id_eq_nil,
    List.forall_mem_cons, List.forall_mem_nil, and_true, List.map_cons,
    List.map_nil, List.sum_cons, List.sum_nil, weightedEntry_getD,
    weightedEntry_eq_none, add_zero]
  split_ifs with h1 h2
  · rfl
  · tauto
  · tauto
  · ring_nf

/-- C8: settlement follows the market rules — a moneyline pick wins iff its
side's team scored strictly more runs (ties push); a totals pick on Over
wins iff the actual total is strictly above the line, on Under iff strictly
below, an exact tie settling PUSH; and profit is `stake*(odds-1)` on WIN,
`-stake` on LOSS and `0` on PUSH. -/
theorem settlement_rules :
    (∀ g : HistoricalGame,
       (match_moneyline "home" g = "WIN" ↔ g.away_score < g.home_score)
     ∧ (match_moneyline "home" g = "LOSS" ↔ g.home_score < g.away_score)
     ∧ (match_moneyline "home" g = "PUSH" ↔ g.home_score = g.away_score)
     ∧ (match_moneyline "away" g = "WIN" ↔ g.home_score < g.away_score)
     ∧ (match_moneyline "away" g = "LOSS" ↔ g.away_score < g.home_score)
     ∧ (match_moneyline "away" g = "PUSH" ↔ g.home_score = g.away_score))
  ∧ (∀ (g : HistoricalGame) (l : ℚ),
       (match_total "OVER" (some l) g = "WIN" ↔ l < (g.total_runs : ℚ))
     ∧ (match_total "OVER" (some l) g = "LOSS" ↔ (g.total_runs : ℚ) < l)
     ∧ (match_total "OVER" (some l) g = "PUSH" ↔ (g.total_runs : ℚ) = l)
     ∧ (match_total "UNDER" (some l) g = "WIN" ↔ (g.total_runs : ℚ) < l)
     ∧ (match_total "UNDER" (some l) g = "LOSS" ↔ l < (g.total_runs : ℚ))
     ∧ (match_total "UNDER" (some l) g = "PUSH" ↔ (g.total_runs : ℚ) = l))
  ∧ (∀ (market side : String) (line : Option ℚ) (stake odds : ℚ)
       (g : HistoricalGame),
       (match_pick market side line g = "WIN" →
          simulate_bet market side line stake odds g = ("WIN", stake * (odds - 1)))
     ∧ (match_pick market side line g = "LOSS" →
          simulate_bet market side line stake odds g = ("LOSS", -stake))
     ∧ (match_pick market side line g = "PUSH" →
          simulate_bet market side line stake odds g = ("PUSH", 0))) := by
  refine ⟨?_, ?_, ?_⟩
  · intro g
    have e1 : match_moneyline "home" g =
        (if g.away_score < g.home_score then "WIN"
         else if g.home_score < g.away_score then "LOSS" else "PUSH") := rfl
    have e2 : match_moneyline "away" g =
        (if g.home_score < g.away_score then "WIN"
         else if g.away_score < g.home_score then "LOSS" else "PUSH") := rfl
    rw [e1, e2]
    refine ⟨?_, ?_, ?_, ?_, ?_, ?_⟩ <;> split_ifs <;> simp_all <;> omega
  · intro g l
    have e1 : match_total "OVER" (some l) g =
        (if l < (g.total_runs : ℚ) then "WIN"
         else if (g.total_runs : ℚ) < l then "LOSS" else "PUSH") := rfl
    have e2 : match_total "UNDER" (some l) g =
        (if (g.total_runs : ℚ) < l then "WIN"
         else if l < (g.total_runs : ℚ) then "LOSS" else "PUSH") := rfl
    rw [e1, e2]
    refine ⟨?_, ?_, ?_, ?_, ?_, ?_⟩ <;> split_ifs <;> simp_all <;> linarith
  · intro market side line stake odds g
    refine ⟨?_, ?_, ?_⟩ <;> intro h <;> simp [simulate_bet, h]

theorem settlement_rules_witness :
    match_moneyline "home" ⟨5, 3, 8⟩ = "WIN"
  ∧ match_moneyline "away" ⟨5, 3, 8⟩ = "LOSS"
  ∧ match_total "OVER" (some (15/2)) ⟨5, 3, 8⟩ = "WIN"
  ∧ match_total "UNDER" (some (17/2)) ⟨5, 3, 8⟩ = "WIN"
  ∧ match_total "OVER" (some (17/2)) ⟨5, 3, 8⟩ = "LOSS"
  ∧ match_total "OVER" (some 8) ⟨5, 3, 8⟩ = "PUSH"
  ∧ simulate_bet "total" "OVER" (some (15/2)) 10 2 ⟨5, 3, 8⟩ = ("WIN", 10 * (2 - 1)) := by
  refine ⟨((settlement_rules.1 ⟨5, 3, 8⟩).1).mpr (by norm_num),
    ((settlement_rules.1 ⟨5, 3, 8⟩).2.2.2.2.1).mpr (by norm_num),
    ((settlement_rules.2.1 ⟨5, 3, 8⟩ (15/2)).1).mpr (by norm_num),
    ((settlement_rules.2.1 ⟨5, 3, 8⟩ (17/2)).2.2.2.1).mpr (by norm_num),
    ((settlement_rules.2.1 ⟨5, 3, 8⟩ (17/2)).2.1).mpr (by norm_num),
    ((settlement_rules.2.1 ⟨5, 3, 8⟩ 8).2.2.1).mpr (by norm_num),
    (settlement_rules.2.2 "total" "OVER" (some (15/2)) 10 2 ⟨5, 3, 8⟩).1 ?_⟩
  exact ((settlement_rules.2.1 ⟨5, 3, 8⟩ (15/2)).1).mpr (by norm_num)

/-- C10: every pick produced by `evaluate_totals_market` carries side
`"OVER"` or `"UNDER"` (uppercase), and `correlation_stake_multiplier`
returns exactly 1.0 for it, because its tests compare against the lowercase
`"over"`/`"under"`; the reduced multipliers 0.75 and 0.70 require a
lowercase totals side, and the multiplier is always 1.0, 0.75 or 0.70. -/
theorem totals_side_correlation :
    (∀ (powv : ℚ) (a : Analysis) (p : TotalsPick),
        evaluate_totals_market powv a = some p →
        (p.side = "OVER" ∨ p.side = "UNDER")
      ∧ ∀ ml_side : String,
          (correlation_stake_multiplier (some ml_side) (some p.side)).multiplier = 1)
  ∧ (∀ a b : Option String,
        (correlation_stake_multiplier a b).multiplier = 1 ∨
        (correlation_stake_multiplier a b).multiplier = 3/4 ∨
        (correlation_stake_multiplier a b).multiplier = 7/10)
  ∧ (∀ ms ts : String,
        ((correlation_stake_multiplier (some ms) (some ts)).multiplier = 3/4 →
          ts = "over")
      ∧ ((correlation_stake_multiplier (some ms) (some ts)).multiplier = 7/10 →
          ts = "under")) := by
  have hside : ∀ (powv : ℚ) (a : Analysis) (p : TotalsPick),
      evaluate_totals_market powv a = some p →
      p.side = "OVER" ∨ p.side = "UNDER" := by
    intro powv a p h
    unfold evaluate_totals_market at h
    dsimp only at h
    rcases hpt : a.proj_total with _ | pt <;> rw [hpt] at h <;>
      (try dsimp only at h)
    · exact absurd h (by simp)
    rcases hl : a.market_total.line with _ | line <;> rw [hl] at h <;>
      (try dsimp only at h)
    · exact absurd h (by simp)
    rcases ho : a.market_total.odds_over with _ | ov <;> rw [ho] at h <;>
      rcases hu : a.market_total.odds_under with _ | uv <;> rw [hu] at h <;>
      (try dsimp only at h) <;>
      (repeat first | split_ifs at h | dsimp only at h) <;>
      cases h <;>
      first | exact Or.inl rfl | exact Or.inr rfl
  refine ⟨?_, corr_stake_multiplier_cases, ?_⟩
  · intro powv a p h
    refine ⟨hside powv a p h, ?_⟩
    intro ml_side
    rcases hside powv a p h with hs | hs <;> rw [hs] <;>
      simp [correlation_stake_multiplier]
  · intro ms ts
    unfold correlation_stake_multiplier
    dsimp only
    split_ifs with h1 h2
    · exact ⟨fun _ => by tauto, fun hc => absurd hc (by norm_num)⟩
    · exact ⟨fun hc => absurd hc (by norm_num), fun _ => by tauto⟩
    · exact ⟨fun hc => absurd hc (by norm_num), fun hc => absurd hc (by norm_num)⟩

theorem totals_side_correlation_witness :
    (((⟨"TOTAL", "OVER", 8, 2, 667/1000, 167/1000, 3/5⟩ : TotalsPick).side = "OVER"
      ∨ (⟨"TOTAL", "OVER", 8, 2, 667/1000, 167/1000, 3/5⟩ : TotalsPick).side = "UNDER")
    ∧ ∀ ml_side : String,
        (correlation_stake_multiplier (some ml_side)
          (some (⟨"TOTAL", "OVER", 8, 2, 667/1000, 167/1000, 3/5⟩ : TotalsPick).side)).multiplier = 1) :=
  totals_side_correlation.1 (1/2) analysisTotalsOnly
    ⟨"TOTAL", "OVER", 8, 2, 667/1000, 167/1000, 3/5⟩
    (by norm_num [evaluate_totals_market, analysisTotalsOnly, edge, implied_prob,
      pyRound, roundHalfEven])

/-- C5: with totals data present, the ML–totals adjustment classifies the
pick by the favorite test (`edge > 0` and `odds < 0`) or underdog test
(`odds > 0`), boosts a favorite aligned with a high-total lean and an
underdog aligned with a low-total lean, penalizes the crossed combinations,
keeps both multipliers within `[1 - 0.07, 1 + 0.07]`, and returns exactly
1.0 for both multipliers when the projected total or the line is absent. -/
theorem ml_totals_adjustment_rules (ml_pick : Pick) (analysis : Analysis)
    (pt tl : ℚ)
    (hpt : analysis.projections.bind Projections.total_runs = some pt)
    (htl : analysis.market_total.line = some tl) :
    (1 - 7/100 ≤
        (ml_totals_correlation_adjustment ml_pick analysis (7/100) (-(7/100))).edge_multiplier
      ∧ (ml_totals_correlation_adjustment ml_pick analysis (7/100) (-(7/100))).edge_multiplier
          ≤ 1 + 7/100)
  ∧ (ml_totals_correlation_adjustment ml_pick analysis (7/100) (-(7/100))).confidence_multiplier
      = (ml_totals_correlation_adjustment ml_pick analysis (7/100) (-(7/100))).edge_multiplier
  ∧ ((0 < ml_pick.edge ∧ ml_pick.odds < 0) ∧ 3/5 < pt - tl →
      1 < (ml_totals_correlation_adjustment ml_pick analysis (7/100) (-(7/100))).edge_multiplier)
  ∧ ((0 < ml_pick.edge ∧ ml_pick.odds < 0) ∧ pt - tl < -(3/5) →
      (ml_totals_correlation_adjustment ml_pick analysis (7/100) (-(7/100))).edge_multiplier < 1)
  ∧ (0 < ml_pick.odds ∧ pt - tl < -(3/5) →
      1 < (ml_totals_correlation_adjustment ml_pick analysis (7/100) (-(7/100))).edge_multiplier)
  ∧ (0 < ml_pick.odds ∧ 3/5 < pt - tl →
      (ml_totals_correlation_adjustment ml_pick analysis (7/100) (-(7/100))).edge_multiplier < 1)
  ∧ (∀ (p2 : Pick) (a2 : Analysis),
      a2.projections.bind Projections.total_runs = none ∨ a2.market_total.line = none →
      ml_totals_correlation_adjustment p2 a2 (7/100) (-(7/100)) =
        ⟨1, 1, "No totals data available"⟩) := by
  have hneutral : ∀ (p2 : Pick) (a2 : Analysis),
      a2.projections.bind Projections.total_runs = none ∨ a2.market_total.line = none →
      ml_totals_correlation_adjustment p2 a2 (7/100) (-(7/100)) =
        ⟨1, 1, "No totals data available"⟩ := by
    intro p2 a2 hc
    unfold ml_totals_correlation_adjustment
    rcases hc with hc | hc
    · rw [hc]
      all_goals rcases a2.market_total.line with _ | tl2 <;> rfl
    · rw [hc]
      all_goals rcases a2.projections.bind Projections.total_runs with _ | pt2 <;> rfl
  refine ⟨?_, ?_, ?_, ?_, ?_, ?_, hneutral⟩
  · unfold ml_totals_correlation_adjustment
    rw [hpt, htl]
    dsimp only
    split_ifs <;> exact pyRound_clamp_bounds _
  · unfold ml_totals_correlation_adjustment
    rw [hpt, htl]
    all_goals dsimp only
    all_goals split_ifs <;> rfl
  · intro hx
    unfold ml_totals_correlation_adjustment
    rw [hpt, htl]
    dsimp only
    rw [if_pos hx]
    dsimp only
    have hb : (52/1000 : ℚ) ≤ 7/100 ⊓ (4/100 + (pt - tl) * (2/100)) :=
      le_min (by norm_num) (by linarith [hx.2])
    have hcl : (52/1000 : ℚ) ≤ (7/100 ⊓ (4/100 + (pt - tl) * (2/100))) ⊓ 7/100 ⊔ -(7/100) :=
      le_trans (le_min hb (by norm_num)) (le_max_left _ _)
    exact lt_of_lt_of_le (by norm_num)
      (const_le_pyRound 3 (1052/1000) 1052 (by norm_num) (by linarith))
  · intro hx
    unfold ml_totals_correlation_adjustment
    rw [hpt, htl]
    dsimp only
    rw [if_neg (by rintro ⟨-, hd⟩; linarith [hx.2]), if_pos hx]
    dsimp only
    have hb : -(7/100) ⊔ (-(4/100) + (pt - tl) * (2/100)) ≤ -(52/1000 : ℚ) :=
      max_le (by norm_num) (by linarith [hx.2])
    have hcl : (-(7/100) ⊔ (-(4/100) + (pt - tl) * (2/100))) ⊓ 7/100 ⊔ -(7/100)
        ≤ -(52/1000 : ℚ) :=
      max_le (le_trans (min_le_left _ _) hb) (by norm_num)
    exact lt_of_le_of_lt
      (pyRound_le_const 3 (948/1000) 948 (by norm_num) (by linarith)) (by norm_num)
  · intro hx
    unfold ml_totals_correlation_adjustment
    rw [hpt, htl]
    dsimp only
    rw [if_neg (by rintro ⟨-, hd⟩; linarith [hx.2]),
        if_neg (by rintro ⟨⟨-, ho⟩, -⟩; linarith [hx.1]), if_pos hx]
    dsimp only
    have habs : (3/5 : ℚ) < |pt - tl| := by
      rw [abs_of_neg (by linarith [hx.2] : pt - tl < 0)]
      linarith [hx.2]
    have hb : (47/1000 : ℚ) ≤ 7/100 ⊓ (35/1000 + |pt - tl| * (2/100)) :=
      le_min (by norm_num) (by linarith)
    have hcl : (47/1000 : ℚ) ≤ (7/100 ⊓ (35/1000 + |pt - tl| * (2/100))) ⊓ 7/100 ⊔ -(7/100) :=
      le_trans (le_min hb (by norm_num)) (le_max_left _ _)
    exact lt_of_lt_of_le (by norm_num)
      (const_le_pyRound 3 (1047/1000) 1047 (by norm_num) (by linarith))
  · intro hx
    unfold ml_totals_correlation_adjustment
    rw [hpt, htl]
    dsimp only
    rw [if_neg (by rintro ⟨⟨-, ho⟩, -⟩; linarith [hx.1]),
        if_neg (by rintro ⟨⟨-, ho⟩, -⟩; linarith [hx.1]),
        if_neg (by rintro ⟨-, hd⟩; linarith [hx.2]), if_pos hx]
    dsimp only
    have hb : -(7/100) ⊔ (-(4/100) - (pt - tl) * (2/100)) ≤ -(52/1000 : ℚ) :=
      max_le (by norm_num) (by linarith [hx.2])
    have hcl : (-(7/100) ⊔ (-(4/100) - (pt - tl) * (2/100))) ⊓ 7/100 ⊔ -(7/100)
        ≤ -(52/1000 : ℚ) :=
      max_le (le_trans (min_le_left _ _) hb) (by norm_num)
    exact lt_of_le_of_lt
      (pyRound_le_const 3 (948/1000) 948 (by norm_num) (by linarith)) (by norm_num)

theorem ml_totals_adjustment_rules_witness :
    (ml_totals_correlation_adjustment pickUnderdog analysisTotalsOnly
      (7/100) (-(7/100))).edge_multiplier < 1 :=
  (ml_totals_adjustment_rules pickUnderdog analysisTotalsOnly 9 8 rfl rfl).2.2.2.2.2.1
    ⟨by norm_num [pickUnderdog], by norm_num⟩

theorem ceil_as_floor (x : ℚ) : ⌈x⌉ = -⌊-x⌋ := by
  rw [Int.floor_neg, neg_neg]

/-- C9 counterexample: the American odds value `+50` converts to decimal 1.5,
which converts back to `-200`, nowhere near `+50`: the round-trip law fails
for American odds of magnitude below 100. -/
theorem odds_roundtrip_counterexample :
    american_to_decimal 50 = .ok (3/2)
  ∧ decimal_to_american (3/2) = .ok (-200)
  ∧ ¬ (|(-200 : ℤ) - 50| ≤ 1) := by
  refine ⟨?_, ?_, by decide⟩
  · norm_num [american_to_decimal]
  · rw [show decimal_to_american (3/2) = .ok (pyInt (-100 / (3/2 - 1))) by
      norm_num [decimal_to_american]]
    rw [show (-100 : ℚ) / (3/2 - 1) = -200 by norm_num]
    rw [show pyInt (-200 : ℚ) = -200 by
      rw [pyInt, if_neg (by norm_num), ceil_as_floor]; norm_num]

/-- C9 amended: the decimal-to-American round-trip recovers any decimal odds
above 1.0 within 0.01; the American-to-decimal round-trip is exact for
American odds `>= +100` or `<= -101`, while `-100` maps to decimal 2.0 and
back to `+100` (the same price), and odds of magnitude below 100 are not
recovered. -/
theorem odds_roundtrip :
    (∀ d : ℚ, 1 < d → ∃ (a : ℤ) (d2 : ℚ),
        decimal_to_american d = .ok a ∧ american_to_decimal a = .ok d2 ∧
        |d2 - d| < 1/100)
  ∧ (∀ a : ℤ, 100 ≤ a ∨ a ≤ -101 → ∃ d : ℚ,
        american_to_decimal a = .ok d ∧ decimal_to_american d = .ok a)
  ∧ american_to_decimal (-100) = .ok 2 ∧ decimal_to_american 2 = .ok 100 := by
  refine ⟨?_, ?_, ?_, ?_⟩
  · intro d hd
    by_cases h2 : 2 ≤ d
    · have hz0 : (100 : ℚ) ≤ (d - 1) * 100 := by linarith
      have hfl : (100 : ℤ) ≤ ⌊(d - 1) * 100⌋ := by
        rw [Int.le_floor]; exact_mod_cast hz0
      have hfle : ((⌊(d - 1) * 100⌋ : ℤ) : ℚ) ≤ (d - 1) * 100 := Int.floor_le _
      have hflg : (d - 1) * 100 - 1 < ((⌊(d - 1) * 100⌋ : ℤ) : ℚ) :=
        Int.sub_one_lt_floor _
      refine ⟨⌊(d - 1) * 100⌋, (⌊(d - 1) * 100⌋ : ℚ) / 100 + 1, ?_, ?_, ?_⟩
      · unfold decimal_to_american
        rw [if_neg (by linarith), if_pos h2]
        unfold pyInt
        rw [if_pos (by linarith : (0 : ℚ) ≤ (d - 1) * 100)]
      · unfold american_to_decimal
        rw [if_neg (by omega), if_neg (by omega)]
      · rw [abs_lt]
        constructor <;> linarith
    · push_neg at h2
      have hd1 : (0 : ℚ) < d - 1 := by linarith
      have hy100 : (100 : ℚ) < 100 / (d - 1) := by
        rw [lt_div_iff hd1]; nlinarith
      have hfl : (100 : ℤ) ≤ ⌊100 / (d - 1)⌋ := by
        rw [Int.le_floor]; exact_mod_cast le_of_lt hy100
      have hflq : (100 : ℚ) ≤ (⌊100 / (d - 1)⌋ : ℚ) := by exact_mod_cast hfl
      have hfle : ((⌊100 / (d - 1)⌋ : ℤ) : ℚ) ≤ 100 / (d - 1) := Int.floor_le _
      have hflg : 100 / (d - 1) - 1 < ((⌊100 / (d - 1)⌋ : ℤ) : ℚ) :=
        Int.sub_one_lt_floor _
      refine ⟨-⌊100 / (d - 1)⌋, 100 / (⌊100 / (d - 1)⌋ : ℚ) + 1, ?_, ?_, ?_⟩
      · unfold decimal_to_american
        rw [if_neg (by linarith), if_neg (by linarith)]
        unfold pyInt
        rw [if_neg (by intro hc; rw [neg_div] at hc; nlinarith [neg_nonneg.1 hc])]
        rw [neg_div, ceil_as_floor, neg_neg]
      · unfold american_to_decimal
        rw [if_neg (by omega), if_pos (by omega)]
        have habs : |((-⌊100 / (d - 1)⌋ : ℤ) : ℚ)| = ((⌊100 / (d - 1)⌋ : ℤ) : ℚ) := by
          push_cast
          rw [abs_neg, abs_of_nonneg (by linarith)]
        rw [habs]
      · have hdy : d - 1 = 100 / (100 / (d - 1)) := by
          field_simp
        have hne : ((⌊100 / (d - 1)⌋ : ℤ) : ℚ) ≠ 0 := by linarith
        have hyne : (100 : ℚ) / (d - 1) ≠ 0 := by linarith
        have key : 100 / (⌊100 / (d - 1)⌋ : ℚ) - 100 / (100 / (d - 1)) < 1/100 := by
          rw [div_sub_div _ _ hne hyne, div_lt_iff (by nlinarith)]
          nlinarith
        have key2 : (0 : ℚ) ≤ 100 / (⌊100 / (d - 1)⌋ : ℚ) - 100 / (100 / (d - 1)) := by
          have h1 : 100 / (100 / (d - 1)) ≤ 100 / (⌊100 / (d - 1)⌋ : ℚ) := by
            rw [div_le_div_iff (by linarith) (by linarith)]
            nlinarith
          linarith
        have heq : 100 / (⌊100 / (d - 1)⌋ : ℚ) + 1 - d =
            100 / (⌊100 / (d - 1)⌋ : ℚ) - 100 / (100 / (d - 1)) := by
          rw [← hdy]; ring
        rw [heq, abs_of_nonneg key2]
        exact key
  · intro a ha
    rcases ha with ha | ha
    · refine ⟨(a : ℚ) / 100 + 1, ?_, ?_⟩
      · unfold american_to_decimal
        rw [if_neg (by omega), if_neg (by omega)]
      · have haq : (100 : ℚ) ≤ (a : ℚ) := by exact_mod_cast ha
        unfold decimal_to_american
        rw [if_neg (by linarith), if_pos (by linarith)]
        have harg : ((a : ℚ) / 100 + 1 - 1) * 100 = (a : ℚ) := by
          field_simp
        rw [harg]
        unfold pyInt
        rw [if_pos (by linarith), Int.floor_intCast]
    · have habs : |a| = -a := abs_of_neg (by omega)
      have habsq : ((|a| : ℤ) : ℚ) = ((-a : ℤ) : ℚ) := by exact_mod_cast habs
      have hm : (101 : ℚ) ≤ ((|a| : ℤ) : ℚ) := by
        rw [habsq]; exact_mod_cast (by omega : (101 : ℤ) ≤ -a)
      have hmpos : (0 : ℚ) < ((|a| : ℤ) : ℚ) := by linarith
      refine ⟨100 / ((|a| : ℤ) : ℚ) + 1, ?_, ?_⟩
      · unfold american_to_decimal
        rw [if_neg (by omega), if_pos (by omega), ← Int.cast_abs]
      · have hlt1 : 100 / ((|a| : ℤ) : ℚ) < 1 := by
          rw [div_lt_one hmpos]; linarith
        have hgt0 : (0 : ℚ) < 100 / ((|a| : ℤ) : ℚ) := by positivity
        unfold decimal_to_american
        rw [if_neg (by linarith), if_neg (by linarith)]
        have harg : (-100 : ℚ) / (100 / ((|a| : ℤ) : ℚ) + 1 - 1) =
            -(((|a| : ℤ) : ℚ)) := by
          field_simp
          ring
        rw [harg]
        unfold pyInt
        rw [if_neg (by intro hc; nlinarith [neg_nonneg.1 hc]),
            ceil_as_floor, neg_neg, Int.floor_intCast]
        rw [show -|a| = a by omega]
  · norm_num [american_to_decimal]
  · rw [show decimal_to_american 2 = .ok (pyInt ((2 - 1) * 100)) by
      norm_num [decimal_to_american]]
    rw [show ((2 : ℚ) - 1) * 100 = 100 by norm_num]
    rw [show pyInt (100 : ℚ) = 100 by
      rw [pyInt, if_pos (by norm_num)]; norm_num]

theorem odds_roundtrip_witness :
    (∃ (a : ℤ) (d2 : ℚ), decimal_to_american (3/2) = .ok a ∧
        american_to_decimal a = .ok d2 ∧ |d2 - 3/2| < 1/100)
  ∧ (∃ d : ℚ, american_to_decimal 150 = .ok d ∧ decimal_to_american d = .ok 150) :=
  ⟨odds_roundtrip.1 (3/2) (by norm_num),
   odds_roundtrip.2.1 150 (Or.inl (by norm_num))⟩

/-- Concrete evaluation: on an analysis with no projections but a live
moneyline market (decimal 2.5 both sides, confidence 0.6), the Monte Carlo
fallback probabilities 0.5/0.5 give both sides edge 0.25 and the evaluator
returns the away pick. -/
theorem evalNoProjections_eq :
    evaluate_moneyline_market 0 (1/25) (11/20) analysisNoProjections =
      some ⟨"moneyline", "away", "AWAY", 5/2, "decimal", 1/2, 2/5, 1/4, 11/20,
        "Monte Carlo ML (starter + bullpen, 7–9 innings), adjusted for data quality",
        "No totals data available"⟩ := by
  norm_num [evaluate_moneyline_market, analysisNoProjections, monte_carlo_moneyline,
    apply_low_sample_penalty, lowQualityFlag, normalize_odds_to_decimal,
    implied_probability_from_decimal, normalize_edge,
    ml_totals_correlation_adjustment, pyRound, roundHalfEven, min_def, max_def]

/-- C4 amended: the evaluator returns no pick (and raises nothing) when the
moneyline market is absent, the confidence is below `min_confidence`, either
side's odds are missing, or odds normalization fails; a missing projection
does not cause a no-pick — the Monte Carlo step falls back to 0.5/0.5. -/
theorem moneyline_guards (mcHome minE minC : ℚ) (a : Analysis) :
    (a.market_moneyline = none → evaluate_moneyline_market mcHome minE minC a = none)
  ∧ (a.confidence < minC → evaluate_moneyline_market mcHome minE minC a = none)
  ∧ (∀ m, a.market_moneyline = some m → (m.home = none ∨ m.away = none) →
      evaluate_moneyline_market mcHome minE minC a = none)
  ∧ (∀ m hr ar er, a.market_moneyline = some m → m.home = some hr →
      m.away = some ar →
      (normalize_odds_to_decimal hr = .error er ∨
        normalize_odds_to_decimal ar = .error er) →
      evaluate_moneyline_market mcHome minE minC a = none) := by
  refine ⟨?_, ?_, ?_, ?_⟩
  · intro h
    unfold evaluate_moneyline_market
    rw [h]
  · intro h
    unfold evaluate_moneyline_market
    rcases hm : a.market_moneyline with _ | m
    · rfl
    · dsimp only
      rw [if_pos h]
  · intro m hm hor
    unfold evaluate_moneyline_market
    rw [hm]
    dsimp only
    split_ifs
    · rfl
    · rcases hh2 : m.home with _ | hr <;> rcases ha2 : m.away with _ | ar <;>
        try rfl
      all_goals
        rcases hor with h | h <;>
          first
            | (rw [h] at hh2; exact absurd hh2 (by simp))
            | (rw [h] at ha2; exact absurd ha2 (by simp))
  · intro m hr ar er hm hh ha herr
    unfold evaluate_moneyline_market
    rw [hm]
    dsimp only
    split_ifs
    · rfl
    · rw [hh, ha]
      dsimp only
      rcases he1 : normalize_odds_to_decimal hr with e1 | d1 <;>
        rcases he2m : normalize_odds_to_decimal ar with e2 | d2 <;>
        try rfl
      all_goals
        rcases herr with h | h <;>
          first
            | (rw [h] at he1; exact absurd he1 (by simp))
            | (rw [h] at he2m; exact absurd he2m (by simp))

theorem moneyline_guards_witness :
    evaluate_moneyline_market 0 (1/25) (11/20)
      { analysisNoProjections with confidence := 1/2 } = none :=
  (moneyline_guards 0 (1/25) (11/20)
    { analysisNoProjections with confidence := 1/2 }).2.1 (by norm_num)

/-- C4 counterexample: with the projections entirely absent the evaluator
still returns a pick (the Monte Carlo step silently falls back to 0.5/0.5
probabilities), contradicting the claim that a missing `home_runs` or
`away_runs` yields None. -/
theorem moneyline_missing_projections_counterexample :
    analysisNoProjections.projections = none
  ∧ evaluate_moneyline_market 0 (1/25) (11/20) analysisNoProjections ≠ none := by
  refine ⟨rfl, ?_⟩
  rw [evalNoProjections_eq]
  simp

/-- C1 counterexample: with equal edges 0.25 on both sides (both clearing
min_edge 0.04), the evaluator returns the AWAY side, not the home side: the
away check `edge_away >= best_edge` uses the updated best edge and so wins
exact ties. -/
theorem moneyline_tie_counterexample :
    (evaluate_moneyline_market 0 (1/25) (11/20) analysisNoProjections).map Pick.side
      = some "away"
  ∧ normalize_edge
      (apply_low_sample_penalty (monte_carlo_moneyline 0 analysisNoProjections).1
        analysisNoProjections.flags (35/1000) (12/100))
      (implied_probability_from_decimal (5/2)) = 1/4
  ∧ normalize_edge
      (1 - apply_low_sample_penalty (monte_carlo_moneyline 0 analysisNoProjections).1
        analysisNoProjections.flags (35/1000) (12/100))
      (implied_probability_from_decimal (5/2)) = 1/4
  ∧ ((1/25 : ℚ) ≤ 1/4)
  ∧ ("away" : String) ≠ "home" := by
  refine ⟨?_, ?_, ?_, by norm_num, by simp⟩
  · rw [evalNoProjections_eq]
    rfl
  · norm_num [normalize_edge, apply_low_sample_penalty, monte_carlo_moneyline,
      analysisNoProjections, implied_probability_from_decimal, lowQualityFlag,
      min_def, max_def]
  · norm_num [normalize_edge, apply_low_sample_penalty, monte_carlo_moneyline,
      analysisNoProjections, implied_probability_from_decimal, lowQualityFlag,
      min_def, max_def]

/-- C1 amended: when the entry checks pass, the evaluator selects the side
with the strictly higher edge among those clearing `min_edge`; an exact tie
with both sides clearing `min_edge` selects the AWAY side (the second side
evaluated, whose check is `>=` against the updated best edge); at most one
pick is returned, and no pick iff both edges are below `min_edge`. -/
theorem moneyline_selection (mcHome minE minC : ℚ) (a : Analysis)
    (m : MoneylineMarket) (hraw araw : RawOdds) (hd ad : ℚ)
    (hm : a.market_moneyline = some m) (hc : ¬ a.confidence < minC)
    (hh : m.home = some hraw) (ha : m.away = some araw)
    (hhd : normalize_odds_to_decimal hraw = .ok hd)
    (had : normalize_odds_to_decimal araw = .ok ad) :
    (evaluate_moneyline_market mcHome minE minC a = none ↔
       normalize_edge
         (apply_low_sample_penalty (monte_carlo_moneyline mcHome a).1 a.flags
           (35/1000) (12/100)) (implied_probability_from_decimal hd) < minE
     ∧ normalize_edge
         (1 - apply_low_sample_penalty (monte_carlo_moneyline mcHome a).1 a.flags
           (35/1000) (12/100)) (implied_probability_from_decimal ad) < minE)
  ∧ (∀ p, evaluate_moneyline_market mcHome minE minC a = some p →
       (p.side = "away" ↔
          minE ≤ normalize_edge
            (1 - apply_low_sample_penalty (monte_carlo_moneyline mcHome a).1 a.flags
              (35/1000) (12/100)) (implied_probability_from_decimal ad)
        ∧ normalize_edge
            (apply_low_sample_penalty (monte_carlo_moneyline mcHome a).1 a.flags
              (35/1000) (12/100)) (implied_probability_from_decimal hd)
          ≤ normalize_edge
            (1 - apply_low_sample_penalty (monte_carlo_moneyline mcHome a).1 a.flags
              (35/1000) (12/100)) (implied_probability_from_decimal ad))
     ∧ (p.side = "home" ↔
          minE ≤ normalize_edge
            (apply_low_sample_penalty (monte_carlo_moneyline mcHome a).1 a.flags
              (35/1000) (12/100)) (implied_probability_from_decimal hd)
        ∧ normalize_edge
            (1 - apply_low_sample_penalty (monte_carlo_moneyline mcHome a).1 a.flags
              (35/1000) (12/100)) (implied_probability_from_decimal ad)
          < normalize_edge
            (apply_low_sample_penalty (monte_carlo_moneyline mcHome a).1 a.flags
              (35/1000) (12/100)) (implied_probability_from_decimal hd))) := by
  unfold evaluate_moneyline_market
  rw [hm]
  dsimp only
  rw [if_neg hc, hh, ha]
  dsimp only
  rw [hhd, had]
  dsimp only
  set PH := apply_low_sample_penalty (monte_carlo_moneyline mcHome a).1 a.flags
    (35/1000) (12/100) with hPH
  set EH := normalize_edge PH (implied_probability_from_decimal hd) with hEH
  set EA := normalize_edge (1 - PH) (implied_probability_from_decimal ad) with hEA
  by_cases h1 : minE ≤ EH
  · rw [if_pos h1]
    dsimp only
    by_cases h2 : EH ≤ EA
    · rw [if_pos h2]
      dsimp only
      constructor
      · exact iff_of_false (by simp) (by rintro ⟨hx, -⟩; exact absurd h1 (not_le.2 hx))
      · intro p hp
        obtain rfl := (Option.some.inj hp).symm
        constructor
        · exact iff_of_true rfl ⟨le_trans h1 h2, h2⟩
        · exact iff_of_false (by simp) (by rintro ⟨-, hlt⟩; exact absurd h2 (not_le.2 hlt))
    · rw [if_neg h2]
      dsimp only
      constructor
      · exact iff_of_false (by simp) (by rintro ⟨hx, -⟩; exact absurd h1 (not_le.2 hx))
      · intro p hp
        obtain rfl := (Option.some.inj hp).symm
        constructor
        · exact iff_of_false (by simp) (by rintro ⟨-, hle⟩; exact absurd hle h2)
        · exact iff_of_true rfl ⟨h1, not_le.1 h2⟩
  · rw [if_neg h1]
    dsimp only
    by_cases h2 : minE ≤ EA
    · rw [if_pos h2]
      dsimp only
      constructor
      · exact iff_of_false (by simp) (by rintro ⟨-, hx⟩; exact absurd h2 (not_le.2 hx))
      · intro p hp
        obtain rfl := (Option.some.inj hp).symm
        constructor
        · exact iff_of_true rfl ⟨h2, le_of_lt (lt_of_lt_of_le (not_le.1 h1) h2)⟩
        · exact iff_of_false (by simp) (by rintro ⟨hx, -⟩; exact absurd hx h1)
    · rw [if_neg h2]
      constructor
      · exact iff_of_true rfl ⟨not_le.1 h1, not_le.1 h2⟩
      · intro p hp
        exact absurd hp (by simp)

theorem moneyline_selection_witness :
    evaluate_moneyline_market 0 (1/25) (11/20) analysisNoProjections = none ↔
      normalize_edge
        (apply_low_sample_penalty (monte_carlo_moneyline 0 analysisNoProjections).1
          analysisNoProjections.flags (35/1000) (12/100))
        (implied_probability_from_decimal (5/2)) < 1/25
    ∧ normalize_edge
        (1 - apply_low_sample_penalty (monte_carlo_moneyline 0 analysisNoProjections).1
          analysisNoProjections.flags (35/1000) (12/100))
        (implied_probability_from_decimal (5/2)) < 1/25 :=
  (moneyline_selection 0 (1/25) (11/20) analysisNoProjections
    ⟨some (.ofFloat (5/2)), some (.ofFloat (5/2))⟩ (.ofFloat (5/2)) (.ofFloat (5/2))
    (5/2) (5/2) rfl (by norm_num [analysisNoProjections]) rfl rfl
    (by norm_num [normalize_odds_to_decimal])
    (by norm_num [normalize_odds_to_decimal])).1

end SportsPredictor
